import Mathlib

/-!
Verification of the dirk remote-signer entrypoint and its slashing-protection
rule semantics.  Definitions are shallow embeddings: the functions of
src/main.go are translated directly, and the rules engine and signer pipeline
(which live in repository packages outside the provided source subtree) are
modelled from the specification text.
-/

namespace Dirk

/-! ## Rules engine model -/

/-- Result of a rule evaluation, as in the rules package. -/
inductive RuleResult
  | APPROVED
  | DENIED
  | ERRORED
  deriving DecidableEq, Repr

/-- The per-account slashing-protection record.  Absent fields mean
no history. -/
structure SlashingRecord where
  highest_proposed_slot : Option Nat
  latest_attestation_source_epoch : Option Nat
  latest_attestation_target_epoch : Option Nat
  deriving DecidableEq, Repr

/-- True when a stored record exists whose latest attestation target epoch
is at least the requested target epoch. -/
def existingTargetBlocks (rec : Option SlashingRecord) (target_epoch : Nat) : Bool :=
  match rec with
  | none => false
  | some r =>
    match r.latest_attestation_target_epoch with
    | none => false
    | some t => target_epoch ≤ t

/-- True when a stored record exists whose latest attestation source epoch
exceeds the requested source epoch. -/
def existingSourceBlocks (rec : Option SlashingRecord) (source_epoch : Nat) : Bool :=
  match rec with
  | none => false
  | some r =>
    match r.latest_attestation_source_epoch with
    | none => false
    | some s => source_epoch < s

/-- Modelled from the spec: the attestation rule of the rules engine
(rules/standard, not under the provided source subtree).  If a record exists
with latest_attestation_target_epoch at least the request target epoch the
request is DENIED; if latest_attestation_source_epoch exceeds the request
source epoch it is DENIED; if the request source epoch exceeds the request
target epoch it is DENIED; otherwise it is APPROVED and the record becomes
the pair of the maximum of the existing and request source epochs and the
request target epoch.  The returned record is the persisted state: the spec
requires the update to be durable before the call returns. -/
def evaluateAttestation (rec : Option SlashingRecord) (source_epoch target_epoch : Nat) :
    RuleResult × Option SlashingRecord :=
  if existingTargetBlocks rec target_epoch then (RuleResult.DENIED, rec)
  else if existingSourceBlocks rec source_epoch then (RuleResult.DENIED, rec)
  else if target_epoch < source_epoch then (RuleResult.DENIED, rec)
  else
    let r := rec.getD ⟨none, none, none⟩
    let newSource :=
      match r.latest_attestation_source_epoch with
      | none => source_epoch
      | some s => max s source_epoch
    (RuleResult.APPROVED, some ⟨r.highest_proposed_slot, some newSource, some target_epoch⟩)

/-- Modelled from the spec: the proposal rule of the rules engine
(rules/standard, not under the provided source subtree).  If a record exists
with highest_proposed_slot at least the request slot the request is DENIED
and the record is unchanged; otherwise it is APPROVED and the request slot
is persisted as the new highest proposed slot. -/
def evaluateProposal (rec : Option SlashingRecord) (slot : Nat) :
    RuleResult × Option SlashingRecord :=
  match rec with
  | none => (RuleResult.APPROVED, some ⟨some slot, none, none⟩)
  | some r =>
    match r.highest_proposed_slot with
    | none =>
      (RuleResult.APPROVED,
       some ⟨some slot, r.latest_attestation_source_epoch, r.latest_attestation_target_epoch⟩)
    | some h =>
      if slot ≤ h then (RuleResult.DENIED, some r)
      else
        (RuleResult.APPROVED,
         some ⟨some slot, r.latest_attestation_source_epoch, r.latest_attestation_target_epoch⟩)

/-- The highest proposed slot recorded in an optional record. -/
def recordedSlot (rec : Option SlashingRecord) : Option Nat :=
  rec.bind SlashingRecord.highest_proposed_slot

/-- Run a sequence of proposal requests from an initial record, collecting
the slots of the APPROVED ones and threading the persisted record. -/
def runProposals (rec : Option SlashingRecord) : List Nat → List Nat
  | [] => []
  | slot :: rest =>
    let out := evaluateProposal rec slot
    if out.1 = RuleResult.APPROVED then slot :: runProposals out.2 rest
    else runProposals out.2 rest

/-! ## Signing pipeline model -/

/-- Outcome of the ruler step, including the fail-safe internal error when
the slashing-record update cannot be persisted. -/
inductive RulerOutcome
  | APPROVED
  | DENIED
  | ERRORED
  | INTERNAL
  deriving DecidableEq, Repr

/-- Result of a signing operation. -/
inductive SignResult
  | DENIED
  | NOT_FOUND
  | LOCKED
  | ERRORED
  | INTERNAL
  | SIGNED (sig : Nat)
  deriving DecidableEq, Repr

/-- Inputs that determine a single run of the signing pipeline: the
permission-check outcome, account lookup outcome, unlock outcome, the rule
decision reached by the rules engine, whether the slashing-record update can
be durably persisted, and the signing root. -/
structure PipelineEnv where
  permission : Bool
  accountFound : Bool
  unlocked : Bool
  decision : RuleResult
  persistOk : Bool
  signingRoot : Nat
  deriving DecidableEq, Repr

/-- Modelled from the spec: the ruler wrapping of the rules engine (services
not under the provided source subtree).  An APPROVED decision whose
slashing-record update cannot be durably persisted becomes an Internal
error; slashing safety beats liveness. -/
def rulerEvaluate (decision : RuleResult) (persistOk : Bool) : RulerOutcome :=
  match decision with
  | RuleResult.APPROVED =>
    if persistOk then RulerOutcome.APPROVED else RulerOutcome.INTERNAL
  | RuleResult.DENIED => RulerOutcome.DENIED
  | RuleResult.ERRORED => RulerOutcome.ERRORED

/-- Modelled from the spec: the signer pipeline (services/signer/standard,
not under the provided source subtree).  Checker permission, fetcher lookup,
unlocker, ruler decision; a signature over the signing root is produced only
on the fully successful path. -/
def signPipeline (env : PipelineEnv) : SignResult :=
  if env.permission = false then SignResult.DENIED
  else if env.accountFound = false then SignResult.NOT_FOUND
  else if env.unlocked = false then SignResult.LOCKED
  else
    match rulerEvaluate env.decision env.persistOk with
    | RulerOutcome.APPROVED => SignResult.SIGNED env.signingRoot
    | RulerOutcome.DENIED => SignResult.DENIED
    | RulerOutcome.ERRORED => SignResult.ERRORED
    | RulerOutcome.INTERNAL => SignResult.INTERNAL

/-! ## Helpers for Go library calls used by main.go -/

/-- True when an Except value is a success. -/
def exceptIsOk {ε α : Type} : Except ε α → Bool
  | Except.ok _ => true
  | Except.error _ => false

/-- Model of strconv.ParseUint(s, 10, 64): a nonempty all-digit decimal
string within 64 bits parses; anything else is an error. -/
def parseUint64 (s : String) : Except String Nat :=
  if s.data = [] then Except.error "syntax"
  else if s.data.all Char.isDigit then
    let n := s.data.foldl (fun acc c => acc * 10 + (c.toNat - 48)) 0
    if n < 2 ^ 64 then Except.ok n else Except.error "range"
  else Except.error "syntax"

/-! ## startPeers and the endpoints map (main.go lines 696 to 716 and
400 to 408) -/

/-- The loop of startPeers: iterate over the peers configuration, parse each
key as a uint64, and fail on the first key that does not parse. -/
def startPeersMap : List (String × String) → Except String (List (Nat × String))
  | [] => Except.ok []
  | (k, v) :: rest =>
    match parseUint64 k with
    | Except.error _ => Except.error "failed to parse peers info"
    | Except.ok id =>
      match startPeersMap rest with
      | Except.error e => Except.error e
      | Except.ok m => Except.ok ((id, v) :: m)

/-- The endpoints loop inside startServices: iterate over the peers
configuration, parse each key as a uint64, log and skip keys that do not
parse. -/
def endpointsMap : List (String × String) → List (Nat × String)
  | [] => []
  | (k, v) :: rest =>
    match parseUint64 k with
    | Except.error _ => endpointsMap rest
    | Except.ok id => (id, v) :: endpointsMap rest

/-! ## startUnlocker (main.go lines 601 to 629) -/

/-- The configuration handed to the local unlocker service: the passphrase
values fetched from the secret store. -/
structure UnlockerConfig where
  walletPassphrases : List String
  accountPassphrases : List String
  deriving DecidableEq, Repr

/-- One passphrase-fetching loop of startUnlocker: fetch each configured key
from the secret store in order, stopping at the first failure.  Returns the
result together with the list of keys actually fetched. -/
def fetchPassphrases (fetch : String → Except String String) :
    List String → Except String (List String) × List String
  | [] => (Except.ok [], [])
  | key :: rest =>
    match fetch key with
    | Except.error e => (Except.error e, [key])
    | Except.ok v =>
      let out := fetchPassphrases fetch rest
      match out.1 with
      | Except.error e => (Except.error e, key :: out.2)
      | Except.ok vs => (Except.ok (v :: vs), key :: out.2)

/-- startUnlocker: fetch every wallet passphrase, then every account
passphrase, then construct the unlocker configuration from the fetched
values.  Returns the result together with the list of secret-store keys
fetched, in order. -/
def startUnlockerModel (fetch : String → Except String String)
    (walletKeys accountKeys : List String) :
    Except String UnlockerConfig × List String :=
  let w := fetchPassphrases fetch walletKeys
  match w.1 with
  | Except.error e => (Except.error e, w.2)
  | Except.ok ws =>
    let a := fetchPassphrases fetch accountKeys
    match a.1 with
    | Except.error e => (Except.error e, w.2 ++ a.2)
    | Except.ok aps => (Except.ok ⟨ws, aps⟩, w.2 ++ a.2)

/-! ## startServices (main.go lines 300 to 496) -/

/-- Outcomes of the external collaborators invoked by startServices, in the
order the code invokes them.  Steps whose internals the claims do not touch
are abstracted to a success flag; the unlocker and peers steps are modelled
in full. -/
structure ServicesEnv where
  storesOk : Bool
  fetchSecret : String → Except String String
  walletPassphraseKeys : List String
  accountPassphraseKeys : List String
  checkerOk : Bool
  fetcherOk : Bool
  lockerOk : Bool
  rulerOk : Bool
  listerOk : Bool
  signerOk : Bool
  peersCfg : List (String × String)
  serverCertKey : String
  serverKeyKey : String
  caCertKey : String
  senderOk : Bool
  serverIDStr : String
  generationPassphraseKey : String
  processOk : Bool
  accountManagerOk : Bool
  walletManagerOk : Bool
  apiOk : Bool

/-- startServices: each step is attempted in the order of the code and the
first failure aborts with an error. -/
def startServicesModel (env : ServicesEnv) : Except String Unit :=
  if env.storesOk = false then Except.error "failed to initialise stores"
  else
    match (startUnlockerModel env.fetchSecret env.walletPassphraseKeys
            env.accountPassphraseKeys).1 with
    | Except.error _ => Except.error "failed to initialise local unlocker"
    | Except.ok _ =>
      if env.checkerOk = false then Except.error "failed to start permissions checker"
      else if env.fetcherOk = false then Except.error "failed to initialise account fetcher"
      else if env.lockerOk = false then Except.error "failed to set up locker service"
      else if env.rulerOk = false then Except.error "failed to set up ruler service"
      else if env.listerOk = false then Except.error "failed to initialise lister"
      else if env.signerOk = false then Except.error "failed to create signer service"
      else
        match startPeersMap env.peersCfg with
        | Except.error _ => Except.error "failed to start peers service"
        | Except.ok _ =>
          match env.fetchSecret env.serverCertKey with
          | Except.error _ => Except.error "failed to obtain server certificate"
          | Except.ok _ =>
            match env.fetchSecret env.serverKeyKey with
            | Except.error _ => Except.error "failed to obtain server key"
            | Except.ok _ =>
              match (if env.caCertKey = "" then Except.ok ""
                     else env.fetchSecret env.caCertKey) with
              | Except.error _ => Except.error "failed to obtain client CA certificate"
              | Except.ok _ =>
                if env.senderOk = false then Except.error "failed to create sender service"
                else
                  match parseUint64 env.serverIDStr with
                  | Except.error _ => Except.error "failed to obtain server ID"
                  | Except.ok _ =>
                    match (if env.generationPassphraseKey = "" then Except.ok ""
                           else env.fetchSecret env.generationPassphraseKey) with
                    | Except.error _ =>
                      Except.error "failed to obtain account generation passphrase for process"
                    | Except.ok _ =>
                      if env.processOk = false then
                        Except.error "failed to create process service"
                      else if env.accountManagerOk = false then
                        Except.error "failed to create account manager service"
                      else if env.walletManagerOk = false then
                        Except.error "failed to create wallet manager service"
                      else if env.apiOk = false then
                        Except.error "failed to create API service"
                      else Except.ok ()

/-! ## main (main.go lines 81 to 164) -/

/-- The externally observable steps of main after configuration loading. -/
inductive Step
  | fatalExit
  | initProfiling
  | initTracing
  | setGomaxprocs (n : Nat)
  | initBLS
  | startMonitor
  | registerMetrics
  | setReady (ready : Bool)
  | startServices
  | waitSignal
  | sleep (seconds : Nat)
  | exitProcess
  deriving DecidableEq, Repr

/-- Outcomes of the external collaborators invoked by main. -/
structure MainEnv where
  serverName : String
  tracingOk : Bool
  blsOk : Bool
  monitorOk : Bool
  metricsOk : Bool
  services : ServicesEnv
  numCPU : Nat

/-- The trace of main: an empty server name is fatal before anything else;
each later failure logs and returns; on full success readiness is raised,
the process waits for a termination signal, lowers readiness, sleeps two
seconds and exits. -/
def mainTrace (env : MainEnv) : List Step :=
  if env.serverName = "" then [Step.fatalExit]
  else
    Step.initProfiling :: Step.initTracing ::
      (if env.tracingOk = false then [Step.exitProcess]
       else Step.setGomaxprocs (env.numCPU * 8) :: Step.initBLS ::
         (if env.blsOk = false then [Step.exitProcess]
          else Step.startMonitor ::
            (if env.monitorOk = false then [Step.exitProcess]
             else Step.registerMetrics ::
               (if env.metricsOk = false then [Step.exitProcess]
                else Step.setReady false :: Step.startServices ::
                  (if exceptIsOk (startServicesModel env.services) = false then
                     [Step.exitProcess]
                   else
                     [Step.setReady true, Step.waitSignal, Step.setReady false,
                      Step.sleep 2, Step.exitProcess])))))

/-! ## resolvePath and the storage path (main.go lines 204 to 206 and
732 to 746) -/

/-- Model of filepath.IsAbs on Unix: the path begins with a slash. -/
def isAbs (path : String) : Bool :=
  match path.data with
  | [] => false
  | c :: _ => c == '/'

/-- Model of filepath.Join on two already-clean components: concatenation
with a separator.  This agrees with the Go function whenever both components
are nonempty cleaned paths, which covers every use in main.go. -/
def joinPath (a b : String) : String := a ++ "/" ++ b

/-- resolvePath: an absolute path is returned unchanged; a relative path is
joined onto the configured base directory, or onto the home directory when
no base directory is configured. -/
def resolvePath (baseDir homeDir path : String) : String :=
  if isAbs path then path
  else joinPath (if baseDir = "" then homeDir else baseDir) path

/-- The effective storage-path setting: fetchConfig registers the default
value "storage", so an absent configuration yields that default. -/
def storagePath (cfg : Option String) : String := cfg.getD "storage"

/-! ## Concrete environments for witnesses -/

/-- A secret store that fails on the key "bad" and succeeds elsewhere. -/
def fetchTestFun : String → Except String String :=
  fun k => if k = "bad" then Except.error "denied" else Except.ok ("v" ++ k)

/-- A services environment in which every step succeeds. -/
def servicesEnvOk : ServicesEnv :=
  ⟨true, fetchTestFun, [], [], true, true, true, true, true, true, [],
   "cert", "key", "", true, "1", "", true, true, true, true⟩

/-- A services environment whose only configured wallet passphrase key
cannot be fetched. -/
def servicesEnvBadKey : ServicesEnv :=
  ⟨true, fetchTestFun, ["bad"], [], true, true, true, true, true, true, [],
   "cert", "key", "", true, "1", "", true, true, true, true⟩

/-- A main environment in which everything succeeds, with four CPUs. -/
def mainEnvOk : MainEnv := ⟨"server1", true, true, true, true, servicesEnvOk, 4⟩

/-- A main environment with an empty server name. -/
def mainEnvNoName : MainEnv := ⟨"", true, true, true, true, servicesEnvOk, 4⟩

/-! ## Theorems -/

/-- Any slot collected by runProposals from a record whose stored slot is h
exceeds h. -/
theorem mem_runProposals_gt (l : List Nat) :
    ∀ rec h x, recordedSlot rec = some h → x ∈ runProposals rec l → h < x := by
  induction l with
  | nil => intro rec h x _ hx; simp [runProposals] at hx
  | cons slot rest ih =>
    intro rec h x hrec hx
    match rec with
    | none => simp [recordedSlot] at hrec
    | some r =>
      simp only [recordedSlot, Option.some_bind] at hrec
      rw [runProposals] at hx
      simp only [evaluateProposal, hrec] at hx
      by_cases hle : slot ≤ h
      · rw [if_pos hle] at hx
        simp only [reduceCtorEq, if_false] at hx
        exact ih (some r) h x (by simp [recordedSlot, hrec]) hx
      · rw [if_neg hle] at hx
        simp only [if_pos rfl] at hx
        rcases List.mem_cons.mp hx with hx | hx
        · omega
        · have := ih (some ⟨some slot, r.latest_attestation_source_epoch,
            r.latest_attestation_target_epoch⟩) slot x (by simp [recordedSlot]) hx
          omega

/-- The slots approved by a run of proposal evaluations are pairwise
strictly increasing. -/
theorem runProposals_pairwise (l : List Nat) :
    ∀ rec, List.Pairwise (fun a b => a < b) (runProposals rec l) := by
  induction l with
  | nil => intro rec; simp [runProposals]
  | cons slot rest ih =>
    intro rec
    rw [runProposals]
    by_cases happ : (evaluateProposal rec slot).1 = RuleResult.APPROVED
    · rw [if_pos happ]
      refine List.pairwise_cons.mpr ⟨?_, ih _⟩
      intro x hx
      refine mem_runProposals_gt rest (evaluateProposal rec slot).2 slot x ?_ hx
      match rec with
      | none => simp [evaluateProposal, recordedSlot]
      | some r =>
        match hslot : r.highest_proposed_slot with
        | none => simp [evaluateProposal, hslot, recordedSlot]
        | some h =>
          by_cases hle : slot ≤ h
          · exfalso
            simp [evaluateProposal, hslot, if_pos hle] at happ
          · simp [evaluateProposal, hslot, if_neg hle, recordedSlot]
    · rw [if_neg happ]
      exact ih _

/-- startServices propagates an unlocker failure as its own failure. -/
theorem servicesModel_fails_of_unlocker (env : ServicesEnv) (e : String)
    (h : (startUnlockerModel env.fetchSecret env.walletPassphraseKeys
            env.accountPassphraseKeys).1 = Except.error e) :
    exceptIsOk (startServicesModel env) = false := by
  rw [startServicesModel]
  by_cases hstores : env.storesOk = false
  · rw [if_pos hstores]; rfl
  · rw [if_neg hstores, h]; rfl

/-- startServices propagates a peers-parsing failure as its own failure. -/
theorem servicesModel_fails_of_peers (env : ServicesEnv) (e : String)
    (h : startPeersMap env.peersCfg = Except.error e) :
    exceptIsOk (startServicesModel env) = false := by
  rw [startServicesModel]
  simp only [h]
  repeat' split
  all_goals rfl

/-- When readiness is raised in the main trace, startServices succeeded. -/
theorem readyTrue_requires_services (env : MainEnv)
    (h : Step.setReady true ∈ mainTrace env) :
    exceptIsOk (startServicesModel env.services) = true := by
  obtain ⟨name, tr, bls, mon, met, services, ncpu⟩ := env
  simp only [mainTrace] at h
  simp only
  cases hs : exceptIsOk (startServicesModel services) with
  | true => rfl
  | false =>
    exfalso
    by_cases hn : name = ""
    · rw [if_pos hn] at h; simp at h
    · rw [if_neg hn] at h
      cases tr <;> cases bls <;> cases mon <;> cases met <;> simp [hs] at h

/-- Readiness is lowered immediately before startServices in the main
trace, and is never raised earlier. -/
theorem readyFalse_before_services (env : MainEnv)
    (h : Step.startServices ∈ mainTrace env) :
    ∃ pre post,
      mainTrace env = pre ++ Step.setReady false :: Step.startServices :: post ∧
      Step.setReady true ∉ pre := by
  obtain ⟨name, tr, bls, mon, met, services, ncpu⟩ := env
  simp only [mainTrace] at h ⊢
  by_cases hn : name = ""
  · rw [if_pos hn] at h; simp at h
  · rw [if_neg hn] at h
    rw [if_neg hn]
    cases tr
    · simp at h
    · cases bls
      · simp at h
      · cases mon
        · simp at h
        · cases met
          · simp at h
          · cases hs : exceptIsOk (startServicesModel services)
            · refine ⟨[Step.initProfiling, Step.initTracing,
                Step.setGomaxprocs (ncpu * 8), Step.initBLS, Step.startMonitor,
                Step.registerMetrics], [Step.exitProcess], ?_, by simp⟩
              simp [hs]
            · refine ⟨[Step.initProfiling, Step.initTracing,
                Step.setGomaxprocs (ncpu * 8), Step.initBLS, Step.startMonitor,
                Step.registerMetrics],
                [Step.setReady true, Step.waitSignal, Step.setReady false,
                 Step.sleep 2, Step.exitProcess], ?_, by simp⟩
              simp [hs]

/-- After the signal wait, the main trace lowers readiness, sleeps two
seconds and exits. -/
theorem signal_then_drain (env : MainEnv)
    (h : Step.waitSignal ∈ mainTrace env) :
    ∃ pre, mainTrace env =
      pre ++ [Step.waitSignal, Step.setReady false, Step.sleep 2,
        Step.exitProcess] := by
  obtain ⟨name, tr, bls, mon, met, services, ncpu⟩ := env
  simp only [mainTrace] at h ⊢
  by_cases hn : name = ""
  · rw [if_pos hn] at h; simp at h
  · rw [if_neg hn] at h
    rw [if_neg hn]
    cases tr
    · simp at h
    · cases bls
      · simp at h
      · cases mon
        · simp at h
        · cases met
          · simp at h
          · cases hs : exceptIsOk (startServicesModel services)
            · exfalso; simp [hs] at h
            · refine ⟨[Step.initProfiling, Step.initTracing,
                Step.setGomaxprocs (ncpu * 8), Step.initBLS, Step.startMonitor,
                Step.registerMetrics, Step.setReady false, Step.startServices,
                Step.setReady true], ?_⟩
              simp [hs]

/-- The GOMAXPROCS step is present on the successful path. -/
theorem gomaxprocs_present (env : MainEnv) (hn : env.serverName ≠ "")
    (htr : env.tracingOk = true) :
    Step.setGomaxprocs (env.numCPU * 8) ∈ mainTrace env := by
  obtain ⟨name, tr, bls, mon, met, services, ncpu⟩ := env
  simp only at hn htr
  subst htr
  simp only [mainTrace]
  rw [if_neg hn]
  simp

/-- Any GOMAXPROCS step in the main trace carries exactly NumCPU times 8. -/
theorem gomaxprocs_unique (env : MainEnv) :
    ∀ n, Step.setGomaxprocs n ∈ mainTrace env → n = env.numCPU * 8 := by
  obtain ⟨name, tr, bls, mon, met, services, ncpu⟩ := env
  intro n h
  simp only [mainTrace] at h
  by_cases hn : name = ""
  · rw [if_pos hn] at h; simp at h
  · rw [if_neg hn] at h
    cases tr <;> cases bls <;> cases mon <;> cases met <;>
      cases hs : exceptIsOk (startServicesModel services) <;>
        simp [hs] at h <;> exact h

/-- C1: evaluate_attestation denies when a stored target epoch is at least
the request target epoch, when a stored source epoch exceeds the request
source epoch, or when the request source epoch exceeds the request target
epoch; otherwise it approves and the persisted record holds the maximum of
the existing and request source epochs together with the request target
epoch. -/
theorem c1_attestation_rule (rec : Option SlashingRecord) (src tgt : Nat) :
    (∀ r t, rec = some r → r.latest_attestation_target_epoch = some t → tgt ≤ t →
      (evaluateAttestation rec src tgt).1 = RuleResult.DENIED) ∧
    (∀ r s, rec = some r → r.latest_attestation_source_epoch = some s → src < s →
      (evaluateAttestation rec src tgt).1 = RuleResult.DENIED) ∧
    (tgt < src → (evaluateAttestation rec src tgt).1 = RuleResult.DENIED) ∧
    ((∀ r t, rec = some r → r.latest_attestation_target_epoch = some t → t < tgt) →
     (∀ r s, rec = some r → r.latest_attestation_source_epoch = some s → s ≤ src) →
     src ≤ tgt →
     evaluateAttestation rec src tgt =
       (RuleResult.APPROVED,
        some ⟨(rec.getD ⟨none, none, none⟩).highest_proposed_slot,
              some (max ((rec.getD ⟨none, none, none⟩).latest_attestation_source_epoch.getD src)
                src),
              some tgt⟩)) := by
  refine ⟨?_, ?_, ?_, ?_⟩
  · intro r t hr ht hle
    subst hr
    simp [evaluateAttestation, existingTargetBlocks, ht, hle]
  · intro r s hr hs hlt
    subst hr
    by_cases htb : existingTargetBlocks (some r) tgt = true
    · simp [evaluateAttestation, htb]
    · have hsb : existingSourceBlocks (some r) src = true := by
        simp [existingSourceBlocks, hs, hlt]
      simp [evaluateAttestation, htb, hsb]
  · intro hlt
    by_cases htb : existingTargetBlocks rec tgt = true
    · simp [evaluateAttestation, htb]
    · by_cases hsb : existingSourceBlocks rec src = true
      · simp [evaluateAttestation, htb, hsb]
      · simp [evaluateAttestation, htb, hsb, hlt]
  · intro htgt hsrc hle
    have htb : existingTargetBlocks rec tgt = false := by
      match rec with
      | none => rfl
      | some r =>
        match ht : r.latest_attestation_target_epoch with
        | none => simp [existingTargetBlocks, ht]
        | some t =>
          have := htgt r t rfl ht
          simp only [existingTargetBlocks, ht, decide_eq_false_iff_not]
          omega
    have hsb : existingSourceBlocks rec src = false := by
      match rec with
      | none => rfl
      | some r =>
        match hs : r.latest_attestation_source_epoch with
        | none => simp [existingSourceBlocks, hs]
        | some s =>
          have := hsrc r s rfl hs
          simp only [existingSourceBlocks, hs, decide_eq_false_iff_not]
          omega
    rw [evaluateAttestation, htb, hsb]
    simp only [Bool.false_eq_true, if_false]
    rw [if_neg (by omega)]
    match rec with
    | none => simp
    | some r =>
      match hs : r.latest_attestation_source_epoch with
      | none => simp [hs]
      | some s => simp [hs]

/-- C1 witness: a concrete record with source epoch 3 and target epoch 5
approves an attestation with source 4 and target 9, recording source 4 and
target 9. -/
theorem c1_attestation_rule_witness :
    evaluateAttestation (some ⟨none, some 3, some 5⟩) 4 9 =
      (RuleResult.APPROVED, some ⟨none, some 4, some 9⟩) := by
  have h := (c1_attestation_rule (some ⟨none, some 3, some 5⟩) 4 9).2.2.2
    (by intro r t hr ht; cases hr; cases ht; decide)
    (by intro r s hr hs; cases hr; cases hs; decide)
    (by decide)
  rw [h]
  decide

/-- C2 counterexample: after a fresh account approves an attestation with
source 5 and target 10, the subsequent attestation with source 4 and target
11 is DENIED, not APPROVED as the claim states: the stored source epoch 5
exceeds the request source epoch 4 (a surround vote). -/
theorem c2_counterexample :
    evaluateAttestation none 5 10 =
      (RuleResult.APPROVED, some ⟨none, some 5, some 10⟩) ∧
    (evaluateAttestation (some ⟨none, some 5, some 10⟩) 4 11).1 = RuleResult.DENIED ∧
    (evaluateAttestation (some ⟨none, some 5, some 10⟩) 4 11).1 ≠ RuleResult.APPROVED := by
  decide

/-- C2 amended: the first attestation on a fresh account is APPROVED and the
record becomes source 5 target 10; the subsequent attestation with source 4
and target 11 is DENIED with the record unchanged, and an attestation that
does not lower the source, source 5 target 11, is APPROVED with the record
becoming source 5 target 11. -/
theorem c2_amended_source_regression_denied :
    evaluateAttestation none 5 10 =
      (RuleResult.APPROVED, some ⟨none, some 5, some 10⟩) ∧
    evaluateAttestation (some ⟨none, some 5, some 10⟩) 4 11 =
      (RuleResult.DENIED, some ⟨none, some 5, some 10⟩) ∧
    evaluateAttestation (some ⟨none, some 5, some 10⟩) 5 11 =
      (RuleResult.APPROVED, some ⟨none, some 5, some 11⟩) := by
  decide

/-- C3: evaluate_proposal denies and leaves the record unchanged when a
stored slot is at least the request slot, approves and persists the request
slot otherwise, and consequently the approved slots of any run of proposal
requests are strictly increasing. -/
theorem c3_proposal_rule (rec : Option SlashingRecord) (slot : Nat) :
    (∀ r h, rec = some r → r.highest_proposed_slot = some h → slot ≤ h →
       evaluateProposal rec slot = (RuleResult.DENIED, rec)) ∧
    ((∀ r h, rec = some r → r.highest_proposed_slot = some h → h < slot) →
       (evaluateProposal rec slot).1 = RuleResult.APPROVED ∧
       recordedSlot (evaluateProposal rec slot).2 = some slot) ∧
    (∀ slots, List.Pairwise (fun a b => a < b) (runProposals rec slots)) := by
  refine ⟨?_, ?_, fun slots => runProposals_pairwise slots rec⟩
  · intro r h hr hh hle
    subst hr
    simp [evaluateProposal, hh, if_pos hle]
  · intro hlt
    match rec with
    | none => simp [evaluateProposal, recordedSlot]
    | some r =>
      match hh : r.highest_proposed_slot with
      | none => simp [evaluateProposal, hh, recordedSlot]
      | some h =>
        have := hlt r h rfl hh
        rw [evaluateProposal]
        simp only [hh]
        rw [if_neg (by omega)]
        simp [recordedSlot]

/-- C3 witness: a proposal at slot 100 against a record holding slot 100 is
DENIED with the record unchanged, and a proposal at slot 101 is APPROVED. -/
theorem c3_proposal_rule_witness :
    evaluateProposal (some ⟨some 100, none, none⟩) 100 =
      (RuleResult.DENIED, some ⟨some 100, none, none⟩) ∧
    (evaluateProposal (some ⟨some 100, none, none⟩) 101).1 = RuleResult.APPROVED := by
  constructor
  · exact (c3_proposal_rule (some ⟨some 100, none, none⟩) 100).1 _ 100 rfl rfl (by decide)
  · exact ((c3_proposal_rule (some ⟨some 100, none, none⟩) 101).2.1
      (by intro r h hr hh; cases hr; cases hh; decide)).1

/-- C4: a signature is produced only when the permission check allowed the
operation, the rule decision was APPROVED and the slashing-record update was
durably persisted; and when the rules engine cannot persist its update the
operation returns Internal and no signature is produced. -/
theorem c4_signature_gating (env : PipelineEnv) :
    (∀ sig, signPipeline env = SignResult.SIGNED sig →
       env.permission = true ∧ env.decision = RuleResult.APPROVED ∧
       env.persistOk = true) ∧
    (env.permission = true → env.accountFound = true → env.unlocked = true →
       env.decision = RuleResult.APPROVED → env.persistOk = false →
       signPipeline env = SignResult.INTERNAL ∧
       ∀ sig, signPipeline env ≠ SignResult.SIGNED sig) := by
  obtain ⟨perm, found, unl, dec, persist, root⟩ := env
  constructor
  · intro sig hsig
    cases perm <;> cases found <;> cases unl <;> cases dec <;> cases persist <;>
      simp [signPipeline, rulerEvaluate] at hsig ⊢
  · intro h1 h2 h3 h4 h5
    simp only at h1 h2 h3 h4 h5
    subst h1; subst h2; subst h3; subst h4; subst h5
    simp [signPipeline, rulerEvaluate]

/-- C4 witness: with permission allowed, the account found and unlocked, an
APPROVED decision and persistence unavailable, the pipeline returns Internal
and signs nothing. -/
theorem c4_signature_gating_witness :
    signPipeline ⟨true, true, true, RuleResult.APPROVED, false, 0⟩ =
      SignResult.INTERNAL :=
  ((c4_signature_gating ⟨true, true, true, RuleResult.APPROVED, false, 0⟩).2
    rfl rfl rfl rfl rfl).1

/-- C5: readiness is lowered before startServices, raised only when
startServices succeeded, and after the termination signal is lowered again,
followed by a two second sleep and the process exit. -/
theorem c5_readiness_lifecycle (env : MainEnv) :
    (Step.setReady true ∈ mainTrace env →
       exceptIsOk (startServicesModel env.services) = true) ∧
    (Step.startServices ∈ mainTrace env →
       ∃ pre post,
         mainTrace env = pre ++ Step.setReady false :: Step.startServices :: post ∧
         Step.setReady true ∉ pre) ∧
    (Step.waitSignal ∈ mainTrace env →
       ∃ pre, mainTrace env =
         pre ++ [Step.waitSignal, Step.setReady false, Step.sleep 2,
           Step.exitProcess]) :=
  ⟨readyTrue_requires_services env, readyFalse_before_services env,
   signal_then_drain env⟩

/-- C5 witness: in the all-success environment the services model succeeds
and the trace ends with the signal wait, readiness lowering, the two second
sleep and the exit. -/
theorem c5_readiness_lifecycle_witness :
    exceptIsOk (startServicesModel mainEnvOk.services) = true ∧
    ∃ pre, mainTrace mainEnvOk =
      pre ++ [Step.waitSignal, Step.setReady false, Step.sleep 2,
        Step.exitProcess] :=
  ⟨(c5_readiness_lifecycle mainEnvOk).1 (by decide),
   (c5_readiness_lifecycle mainEnvOk).2.2 (by decide)⟩

/-- C6: on the path where startup proceeds past tracing, main sets
GOMAXPROCS to exactly NumCPU times 8, and no other GOMAXPROCS value ever
appears in the trace. -/
theorem c6_gomaxprocs (env : MainEnv) :
    (env.serverName ≠ "" → env.tracingOk = true →
       Step.setGomaxprocs (env.numCPU * 8) ∈ mainTrace env) ∧
    ∀ n, Step.setGomaxprocs n ∈ mainTrace env → n = env.numCPU * 8 :=
  ⟨gomaxprocs_present env, gomaxprocs_unique env⟩

/-- C6 witness: with four CPUs the trace contains the GOMAXPROCS step with
value thirty-two. -/
theorem c6_gomaxprocs_witness :
    Step.setGomaxprocs (4 * 8) ∈ mainTrace mainEnvOk :=
  (c6_gomaxprocs mainEnvOk).1 (by decide) rfl

/-- C8: an empty server name makes main terminate fatally before profiling,
BLS, metrics or any service is initialised, and readiness is never raised. -/
theorem c8_empty_server_name (env : MainEnv) (h : env.serverName = "") :
    mainTrace env = [Step.fatalExit] ∧
    Step.initProfiling ∉ mainTrace env ∧
    Step.initBLS ∉ mainTrace env ∧
    Step.startMonitor ∉ mainTrace env ∧
    Step.registerMetrics ∉ mainTrace env ∧
    Step.startServices ∉ mainTrace env ∧
    Step.setReady true ∉ mainTrace env := by
  have ht : mainTrace env = [Step.fatalExit] := by
    simp only [mainTrace]
    rw [if_pos h]
  refine ⟨ht, ?_, ?_, ?_, ?_, ?_, ?_⟩ <;> rw [ht] <;> simp

/-- C8 witness: the concrete environment with an empty server name. -/
theorem c8_empty_server_name_witness :
    mainTrace mainEnvNoName = [Step.fatalExit] ∧
    Step.initProfiling ∉ mainTrace mainEnvNoName ∧
    Step.initBLS ∉ mainTrace mainEnvNoName ∧
    Step.startMonitor ∉ mainTrace mainEnvNoName ∧
    Step.registerMetrics ∉ mainTrace mainEnvNoName ∧
    Step.startServices ∉ mainTrace mainEnvNoName ∧
    Step.setReady true ∉ mainTrace mainEnvNoName :=
  c8_empty_server_name mainEnvNoName rfl

/-- Fetching every key of a list succeeds exactly when each key fetches,
with the call list equal to the key list. -/
theorem fetchPassphrases_all_ok (fetch : String → Except String String)
    (l : List String) (h : ∀ k ∈ l, ∃ v, fetch k = Except.ok v) :
    ∃ vs, fetchPassphrases fetch l = (Except.ok vs, l) ∧
      vs.length = l.length := by
  induction l with
  | nil => exact ⟨[], rfl, rfl⟩
  | cons key rest ih =>
    obtain ⟨v, hv⟩ := h key (List.mem_cons_self key rest)
    obtain ⟨vs, hvs, hlen⟩ := ih (fun k hk => h k (List.mem_cons_of_mem key hk))
    refine ⟨v :: vs, ?_, by simp [hlen]⟩
    simp only [fetchPassphrases]
    rw [hv, hvs]

/-- If some key of the list cannot be fetched, the loop fails. -/
theorem fetchPassphrases_has_error (fetch : String → Except String String)
    (l : List String) (h : ∃ k ∈ l, ∃ e, fetch k = Except.error e) :
    ∃ e calls, fetchPassphrases fetch l = (Except.error e, calls) := by
  induction l with
  | nil => simp at h
  | cons key rest ih =>
    cases hf : fetch key with
    | error e =>
      refine ⟨e, [key], ?_⟩
      simp only [fetchPassphrases]
      rw [hf]
    | ok v =>
      have hrest : ∃ k ∈ rest, ∃ e, fetch k = Except.error e := by
        obtain ⟨k, hk, e, he⟩ := h
        rcases List.mem_cons.mp hk with rfl | hmem
        · rw [hf] at he; simp at he
        · exact ⟨k, hmem, e, he⟩
      obtain ⟨e, calls, hec⟩ := ih hrest
      refine ⟨e, key :: calls, ?_⟩
      simp only [fetchPassphrases]
      rw [hf, hec]

/-- C7: when every configured passphrase key fetches, startUnlocker fetches
exactly the configured keys, in order, once each, and constructs the
unlocker from the fetched values; when any key fails to fetch, startUnlocker
returns an error, and startServices, hence startup, fails. -/
theorem c7_unlocker_passphrases (fetch : String → Except String String)
    (walletKeys accountKeys : List String) :
    ((∀ k ∈ walletKeys ++ accountKeys, ∃ v, fetch k = Except.ok v) →
       ∃ ws aps,
         startUnlockerModel fetch walletKeys accountKeys =
           (Except.ok ⟨ws, aps⟩, walletKeys ++ accountKeys) ∧
         ws.length = walletKeys.length ∧ aps.length = accountKeys.length) ∧
    ((∃ k ∈ walletKeys ++ accountKeys, ∃ e, fetch k = Except.error e) →
       (∃ e, (startUnlockerModel fetch walletKeys accountKeys).1 =
          Except.error e) ∧
       ∀ env : ServicesEnv, env.fetchSecret = fetch →
         env.walletPassphraseKeys = walletKeys →
         env.accountPassphraseKeys = accountKeys →
         exceptIsOk (startServicesModel env) = false) := by
  constructor
  · intro h
    obtain ⟨ws, hws, hwl⟩ := fetchPassphrases_all_ok fetch walletKeys
      (fun k hk => h k (List.mem_append_left _ hk))
    obtain ⟨aps, haps, hal⟩ := fetchPassphrases_all_ok fetch accountKeys
      (fun k hk => h k (List.mem_append_right _ hk))
    refine ⟨ws, aps, ?_, hwl, hal⟩
    simp only [startUnlockerModel]
    rw [hws, haps]
  · intro h
    have herr : ∃ e,
        (startUnlockerModel fetch walletKeys accountKeys).1 = Except.error e := by
      cases hw : (fetchPassphrases fetch walletKeys).1 with
      | error e =>
        refine ⟨e, ?_⟩
        simp only [startUnlockerModel]
        rw [hw]
      | ok ws =>
        have hak : ∃ k ∈ accountKeys, ∃ e, fetch k = Except.error e := by
          obtain ⟨k, hk, e, he⟩ := h
          rcases List.mem_append.mp hk with hkw | hka
          · exfalso
            obtain ⟨e2, calls, hec⟩ :=
              fetchPassphrases_has_error fetch walletKeys ⟨k, hkw, e, he⟩
            rw [hec] at hw
            simp at hw
          · exact ⟨k, hka, e, he⟩
        obtain ⟨e2, calls, hec⟩ := fetchPassphrases_has_error fetch accountKeys hak
        refine ⟨e2, ?_⟩
        simp only [startUnlockerModel]
        rw [hw, hec]
    refine ⟨herr, ?_⟩
    intro env h1 h2 h3
    obtain ⟨e, he⟩ := herr
    exact servicesModel_fails_of_unlocker env e (by rw [h1, h2, h3]; exact he)

/-- C7 witness: both passphrase keys of a two-key configuration are fetched
once each; and the environment whose wallet passphrase key cannot be
fetched makes startServices fail. -/
theorem c7_unlocker_passphrases_witness :
    (∃ ws aps,
       startUnlockerModel fetchTestFun ["w1"] ["a1"] =
         (Except.ok ⟨ws, aps⟩, ["w1"] ++ ["a1"]) ∧
       ws.length = 1 ∧ aps.length = 1) ∧
    exceptIsOk (startServicesModel servicesEnvBadKey) = false := by
  constructor
  · exact (c7_unlocker_passphrases fetchTestFun ["w1"] ["a1"]).1
      (by
        intro k hk
        simp [List.mem_append] at hk
        rcases hk with rfl | rfl
        · exact ⟨"v" ++ "w1", rfl⟩
        · exact ⟨"v" ++ "a1", rfl⟩)
  · exact ((c7_unlocker_passphrases fetchTestFun ["bad"] []).2
      ⟨"bad", by simp, "denied", rfl⟩).2 servicesEnvBadKey rfl rfl rfl

/-- If some key of the peers configuration does not parse, startPeers
fails. -/
theorem startPeersMap_has_error (cfg : List (String × String))
    (h : ∃ kv ∈ cfg, ∃ e, parseUint64 kv.1 = Except.error e) :
    ∃ e, startPeersMap cfg = Except.error e := by
  induction cfg with
  | nil => simp at h
  | cons kv rest ih =>
    obtain ⟨k, v⟩ := kv
    cases hp : parseUint64 k with
    | error e =>
      refine ⟨"failed to parse peers info", ?_⟩
      simp only [startPeersMap]
      rw [hp]
    | ok id =>
      have hrest : ∃ kv ∈ rest, ∃ e, parseUint64 kv.1 = Except.error e := by
        obtain ⟨kv2, hkv2, e, he⟩ := h
        rcases List.mem_cons.mp hkv2 with rfl | hmem
        · rw [hp] at he; simp at he
        · exact ⟨kv2, hmem, e, he⟩
      obtain ⟨e, hee⟩ := ih hrest
      refine ⟨e, ?_⟩
      simp only [startPeersMap]
      rw [hp, hee]

/-- The endpoints loop ignores entries whose key does not parse. -/
theorem endpointsMap_skips (cfg : List (String × String)) :
    endpointsMap cfg =
      endpointsMap (cfg.filter (fun kv => exceptIsOk (parseUint64 kv.1))) := by
  induction cfg with
  | nil => rfl
  | cons kv rest ih =>
    obtain ⟨k, v⟩ := kv
    cases hp : parseUint64 k with
    | error e => simp [endpointsMap, List.filter, hp, exceptIsOk, ih]
    | ok id => simp [endpointsMap, List.filter, hp, exceptIsOk, ih]

/-- When every key parses, startPeers computes the endpoints map. -/
theorem startPeersMap_all_ok (cfg : List (String × String))
    (h : ∀ kv ∈ cfg, ∃ id, parseUint64 kv.1 = Except.ok id) :
    startPeersMap cfg = Except.ok (endpointsMap cfg) := by
  induction cfg with
  | nil => rfl
  | cons kv rest ih =>
    obtain ⟨k, v⟩ := kv
    obtain ⟨id, hid⟩ := h (k, v) (List.mem_cons_self _ _)
    have hr := ih (fun kv2 hkv2 => h kv2 (List.mem_cons_of_mem _ hkv2))
    simp [startPeersMap, endpointsMap, hid, hr]

/-- C9: a peers configuration with an unparsable key makes startPeers, and
with it startup, fail, while the endpoints loop of startServices silently
skips such entries; when all keys parse the two loops build the same
id-to-endpoint map. -/
theorem c9_peers_parsing (cfg : List (String × String)) :
    ((∃ kv ∈ cfg, ∃ e, parseUint64 kv.1 = Except.error e) →
       (∃ e, startPeersMap cfg = Except.error e) ∧
       ∀ env : ServicesEnv, env.peersCfg = cfg →
         exceptIsOk (startServicesModel env) = false) ∧
    (endpointsMap cfg =
       endpointsMap (cfg.filter (fun kv => exceptIsOk (parseUint64 kv.1)))) ∧
    ((∀ kv ∈ cfg, ∃ id, parseUint64 kv.1 = Except.ok id) →
       startPeersMap cfg = Except.ok (endpointsMap cfg)) := by
  refine ⟨?_, endpointsMap_skips cfg, startPeersMap_all_ok cfg⟩
  intro h
  obtain ⟨e, he⟩ := startPeersMap_has_error cfg h
  refine ⟨⟨e, he⟩, ?_⟩
  intro env henv
  exact servicesModel_fails_of_peers env e (by rw [henv]; exact he)

/-- C9 witness: a configuration with the unparsable key "x" makes
startPeers fail, and a fully parsable configuration yields the endpoints
map. -/
theorem c9_peers_parsing_witness :
    (∃ e, startPeersMap [("1", "a"), ("x", "b")] = Except.error e) ∧
    startPeersMap [("1", "a"), ("2", "b")] =
      Except.ok (endpointsMap [("1", "a"), ("2", "b")]) := by
  constructor
  · exact ((c9_peers_parsing [("1", "a"), ("x", "b")]).1
      ⟨("x", "b"), by simp, "syntax", by rfl⟩).1
  · exact (c9_peers_parsing [("1", "a"), ("2", "b")]).2.2
      (by
        intro kv hkv
        simp at hkv
        rcases hkv with rfl | rfl
        · exact ⟨1, by rfl⟩
        · exact ⟨2, by rfl⟩)

/-- String append concatenates the character data. -/
theorem string_data_append (a b : String) : (a ++ b).data = a.data ++ b.data := by
  cases a; cases b; rfl

/-- Joining anything onto an absolute base yields an absolute path. -/
theorem isAbs_joinPath (a b : String) (h : isAbs a = true) :
    isAbs (joinPath a b) = true := by
  unfold isAbs at h
  unfold isAbs joinPath
  rw [string_data_append, string_data_append]
  cases hd : a.data with
  | nil => rw [hd] at h; exact absurd h (by simp)
  | cons c t =>
    rw [hd] at h
    simpa using h

/-- C10 counterexample: with the relative base directory "conf", the
resolved storage path "conf/storage" is not absolute and resolvePath is not
idempotent on it, refuting the always-absolute and idempotence parts of the
claim. -/
theorem c10_counterexample :
    resolvePath "conf" "/home/user" "storage" = "conf/storage" ∧
    isAbs (resolvePath "conf" "/home/user" "storage") = false ∧
    resolvePath "conf" "/home/user" (resolvePath "conf" "/home/user" "storage") ≠
      resolvePath "conf" "/home/user" "storage" := by
  decide

/-- C10 amended: the storage path defaults to "storage"; resolvePath
returns absolute paths unchanged and joins relative paths onto the base
directory, or onto the home directory when no base directory is configured;
and when the directory joined onto is absolute the result is absolute and
resolvePath is idempotent. -/
theorem c10_amended_resolve_path (baseDir homeDir path : String) :
    storagePath none = "storage" ∧
    (isAbs path = true → resolvePath baseDir homeDir path = path) ∧
    (isAbs path = false →
       resolvePath baseDir homeDir path =
         joinPath (if baseDir = "" then homeDir else baseDir) path) ∧
    (isAbs (if baseDir = "" then homeDir else baseDir) = true →
       isAbs (resolvePath baseDir homeDir path) = true ∧
       resolvePath baseDir homeDir (resolvePath baseDir homeDir path) =
         resolvePath baseDir homeDir path) := by
  refine ⟨rfl, ?_, ?_, ?_⟩
  · intro h; simp [resolvePath, h]
  · intro h; simp [resolvePath, h]
  · intro hbase
    by_cases hp : isAbs path = true
    · simp [resolvePath, hp]
    · have hp2 : isAbs path = false := by
        cases hx : isAbs path
        · rfl
        · exact absurd hx hp
      have habs : isAbs (joinPath (if baseDir = "" then homeDir else baseDir)
          path) = true := isAbs_joinPath _ _ hbase
      constructor
      · simp [resolvePath, hp2, habs]
      · simp [resolvePath, hp2, habs]

/-- C10 witness: with the absolute base directory slash-base, the relative
storage path resolves to an absolute path and resolving twice equals
resolving once. -/
theorem c10_amended_resolve_path_witness :
    resolvePath "/base" "/home" "storage" =
      joinPath (if "/base" = "" then "/home" else "/base") "storage" ∧
    isAbs (resolvePath "/base" "/home" "storage") = true ∧
    resolvePath "/base" "/home" (resolvePath "/base" "/home" "storage") =
      resolvePath "/base" "/home" "storage" := by
  refine ⟨(c10_amended_resolve_path "/base" "/home" "storage").2.2.1 (by decide),
    ?_, ?_⟩
  · exact ((c10_amended_resolve_path "/base" "/home" "storage").2.2.2
      (by decide)).1
  · exact ((c10_amended_resolve_path "/base" "/home" "storage").2.2.2
      (by decide)).2

end Dirk
